import Mathlib

/-!
Shallow embedding of the ATCF record decoder of `src/stormevents/nhc/atcf.py`
(repository jreniel/StormEvents), covering `normalize_atcf_value`,
`read_atcf_line` and `read_atcf`.

Python strings are modelled through their character lists so that every
definition evaluates inside the kernel.  Python floats are modelled as exact
rationals; machine rounding is immaterial to the decoded quantities, which are
all short decimal literals.  Fallible Python code is modelled with `Except`:
each raised exception kind becomes a `PyErr` constructor.
-/

/-! ## Python string primitives (character-list based) -/

/-- Removal of leading whitespace characters, as in the left half of
Python `str.strip()`. -/
def trimLeft : List Char → List Char
  | [] => []
  | c :: cs => if c.isWhitespace then trimLeft cs else c :: cs

/-- Model of Python `str.strip()` with no argument: removes whitespace from
both ends. -/
def pyTrim (s : String) : String :=
  String.mk (trimLeft (trimLeft s.data.reverse).reverse)

/-- Removal of a given character from both ends, as in Python
`str.strip(c)` with a single-character argument. -/
def pyStripChar (s : String) (c : Char) : String :=
  String.mk (((s.data.dropWhile (· == c)).reverse.dropWhile (· == c)).reverse)

/-- Model of the Python membership test `c in s` on strings. -/
def pyContains (s : String) (c : Char) : Bool :=
  s.data.contains c

/-- Splitting a character list on a separator character; mirrors Python
`str.split(sep)`: the empty input yields one empty field. -/
def splitOnChar (c : Char) : List Char → List (List Char)
  | [] => [[]]
  | x :: rest =>
    if x = c then [] :: splitOnChar c rest
    else
      match splitOnChar c rest with
      | h :: t => (x :: h) :: t
      | [] => [[x]]

/-- Model of Python `str.split(sep)` for a one-character separator. -/
def pySplit (s : String) (c : Char) : List String :=
  (splitOnChar c s.data).map String.mk

/-- Removal of every occurrence of the two-character escape sequence
backslash followed by n, as in Python `value.replace(r"\n", "")`
(left-to-right, non-overlapping). -/
def stripEscN : List Char → List Char
  | '\\' :: 'n' :: rest => stripEscN rest
  | c :: rest => c :: stripEscN rest
  | [] => []

/-- Model of Python `str.splitlines()` restricted to newline separators: a
trailing newline does not produce a final empty line, and the empty string
yields no lines. -/
def splitlines (s : String) : List String :=
  let parts := splitOnChar '\n' s.data
  (if parts.getLast? = some [] then parts.dropLast else parts).map String.mk

/-! ## Kernel-computable rational arithmetic

The standard `Rat` operations of the library are marked irreducible, so the
decoder is written with the following equivalent smart-constructor versions,
which evaluate inside the kernel; they are proved equal to the standard
operations below. -/

/-- Product of rationals through the normalizing constructor. -/
def ratMul (a b : Rat) : Rat :=
  mkRat (a.num * b.num) (a.den * b.den)

/-- Sum of rationals through the normalizing constructor. -/
def ratAdd (a b : Rat) : Rat :=
  mkRat (a.num * b.den + b.num * a.den) (a.den * b.den)

/-- Difference of rationals through the normalizing constructor. -/
def ratSub (a b : Rat) : Rat :=
  ratAdd a (-b)

/-- The rational power `10 ^ d` for an integer exponent. -/
def pow10 (d : Int) : Rat :=
  if 0 ≤ d then mkRat ((10 ^ d.toNat : Nat) : Int) 1
  else mkRat 1 (10 ^ (-d).toNat)

/-! ## Numeric literal parsing (Python `int()` and `float()` on strings) -/

/-- Decimal value of a digit list. -/
def digitsToNat (cs : List Char) : Nat :=
  cs.foldl (fun a c => a * 10 + (c.toNat - 48)) 0

/-- Whether a character list is non-empty and all decimal digits. -/
def allDigits (cs : List Char) : Bool :=
  cs.all fun c => c.isDigit

/-- Parse a non-empty digit list. -/
def parseNatDigits? (cs : List Char) : Option Nat :=
  if cs ≠ [] ∧ allDigits cs then some (digitsToNat cs) else none

/-- Model of Python `int(s)` on strings: surrounding whitespace, an optional
sign, then decimal digits; anything else raises ValueError (`none` here). -/
def pyInt? (s : String) : Option Int :=
  let cs := (pyTrim s).data
  match cs with
  | '+' :: rest => (parseNatDigits? rest).map Int.ofNat
  | '-' :: rest => (parseNatDigits? rest).map fun n => -(n : Int)
  | _ => (parseNatDigits? cs).map Int.ofNat

/-- Model of Python `float(s)` on strings, restricted to finite plain decimal
literals (optional sign, digits, optional fractional part); exponent, inf and
nan forms are outside the decoded fields and are treated as ValueError. -/
def pyFloat? (s : String) : Option Rat :=
  let cs := (pyTrim s).data
  let signAndRest : Rat × List Char :=
    match cs with
    | '+' :: rest => (1, rest)
    | '-' :: rest => (-1, rest)
    | _ => (1, cs)
  match splitOnChar '.' signAndRest.2 with
  | [a] =>
    if a ≠ [] ∧ allDigits a then some (ratMul signAndRest.1 (digitsToNat a)) else none
  | [a, b] =>
    if (a ≠ [] ∨ b ≠ []) ∧ allDigits a ∧ allDigits b then
      some (ratMul signAndRest.1
        (ratAdd (digitsToNat a : Rat) (mkRat (digitsToNat b : Nat) (10 ^ b.length))))
    else none
  | _ => none

deriving instance DecidableEq for Except

/-! ## Error and value model -/

/-- Exception kinds raised by the decoder, one constructor per Python
exception that the code can surface. `missingRadialWindData` is the distinct
isotach error raised in `read_atcf_line`; `noRecordsFound` is the final
ValueError of `read_atcf`, carrying the requested filter set. -/
inductive PyErr where
  | indexError
  | valueError
  | typeError
  | fileNotFound
  | missingRadialWindData
  | noRecordsFound (recordTypes : Option (List String))
deriving DecidableEq, Repr

/-- Runtime values flowing through `normalize_atcf_value`: Python None, the
floating not-a-number marker (`numpy.nan` / float nan), strings, ints, floats
(as rationals), and a pint-style Quantity wrapper holding a magnitude. -/
inductive PyValue where
  | none
  | nanV
  | str (s : String)
  | intV (n : Int)
  | floatV (q : Rat)
  | quantity (magnitude : PyValue)
deriving DecidableEq, Repr

/-- The target types `normalize_atcf_value` is invoked with in this module
(`issubclass(to_type, (int, float))` distinguishes the first two). -/
inductive PyType where
  | int
  | float
  | str
deriving DecidableEq, Repr

/-- Truncation of a rational toward zero, as in Python `int(float)`. -/
def ratTrunc (q : Rat) : Int :=
  if 0 ≤ q then q.floor else q.ceil

/-- Rounding of a rational to the nearest integer with ties to even, the
behaviour of Python `round`. -/
def roundHalfEven (q : Rat) : Int :=
  let f := q.floor
  let frac := ratSub q (f : Rat)
  if frac < mkRat 1 2 then f
  else if mkRat 1 2 < frac then f + 1
  else if f % 2 = 0 then f else f + 1

/-- Model of Python `round(x, d)` on floats: round half to even at the d-th
decimal place (scale by `10 ^ d`, round to the nearest integer with ties to
even, scale back). -/
def ratRound (q : Rat) (d : Int) : Rat :=
  ratMul ((roundHalfEven (ratMul q (pow10 d)) : Int) : Rat) (pow10 (-d))

/-- Model of Python `round(value, d)` for the value shapes reachable in
`normalize_atcf_value`: ints are unchanged for non-negative d and rounded to
a power of ten otherwise; floats round at the d-th decimal; anything else is
a TypeError. -/
def pyRoundVal (v : PyValue) (d : Int) : Except PyErr PyValue :=
  match v with
  | .intV n =>
    if 0 ≤ d then .ok (.intV n)
    else .ok (.intV (roundHalfEven (ratMul (n : Rat) (pow10 d)) * ((10 ^ (-d).toNat : Nat) : Int)))
  | .floatV q => .ok (.floatV (ratRound q d))
  | _ => .error .typeError

/-- Lift of `pyInt?` into `Except`, ValueError on failure. -/
def pyIntE (s : String) : Except PyErr Int :=
  match pyInt? s with
  | some n => .ok n
  | none => .error .valueError

/-- Lift of `pyFloat?` into `Except`, ValueError on failure. -/
def pyFloatE (s : String) : Except PyErr Rat :=
  match pyFloat? s with
  | some q => .ok q
  | none => .error .valueError

/-- Modelled from the behaviour of the external helper
`typepigeon.convert_value(value, to_type)` for the scalar targets used in
this module: strings are parsed with the target constructor, ints and floats
are converted with Python `int`/`float`; the float-to-string rendering and all
other inputs are not exercised by the decoder and are mapped to an error. -/
def convert_value (v : PyValue) (t : PyType) : Except PyErr PyValue :=
  match t with
  | .int =>
    match v with
    | .str s => (pyIntE s).map .intV
    | .intV n => .ok (.intV n)
    | .floatV q => .ok (.intV (ratTrunc q))
    | _ => .error .typeError
  | .float =>
    match v with
    | .str s => (pyFloatE s).map .floatV
    | .intV n => .ok (.floatV (n : Rat))
    | .floatV q => .ok (.floatV q)
    | _ => .error .typeError
  | .str =>
    match v with
    | .str s => .ok (.str s)
    | .intV n => .ok (.str (toString n))
    | _ => .error .typeError

/-- Embedding of `normalize_atcf_value` (atcf.py lines 163-172): unwrap a
Quantity to its magnitude, pass None / nan / empty string through unchanged,
otherwise optionally float-convert and round when a precision is requested
for an int or float target, then convert to the target type. -/
def normalize_atcf_value (value : PyValue) (to_type : PyType)
    (round_digits : Option Int) : Except PyErr PyValue :=
  let value := match value with
    | .quantity m => m
    | v => v
  if value = .none ∨ value = .nanV ∨ value = .str "" then .ok value
  else do
    let value ← match round_digits, to_type with
      | some d, .int | some d, .float => do
        let v2 ← match value with
          | .str s => (pyFloatE s).map .floatV
          | v => pure v
        pyRoundVal v2 d
      | _, _ => pure value
    convert_value value to_type

/-! ## Datetime model -/

/-- Gregorian leap-year test. -/
def isLeapYear (y : Nat) : Bool :=
  y % 4 == 0 && (y % 100 != 0 || y % 400 == 0)

/-- Number of days in a month of a given year. -/
def daysInMonth (y m : Nat) : Nat :=
  if m = 2 then (if isLeapYear y then 29 else 28)
  else if m = 4 ∨ m = 6 ∨ m = 9 ∨ m = 11 then 30
  else 31

/-- Days in the given year that precede the first day of month `m`. -/
def daysBeforeMonth (y m : Nat) : Nat :=
  (List.range (m - 1)).foldl (fun a i => a + daysInMonth y (i + 1)) 0

/-- Days in all years strictly before year `y` (proleptic Gregorian). -/
def daysBeforeYear (y : Nat) : Nat :=
  (y - 1) * 365 + (y - 1) / 4 - (y - 1) / 100 + (y - 1) / 400

/-- Absolute timestamp of a calendar datetime, in minutes; the linear scale on
which `timedelta` addition acts. -/
def dtMinutes (y mo d h mi : Nat) : Int :=
  ((((daysBeforeYear y + daysBeforeMonth y mo + (d - 1)) * 24 + h) * 60 + mi : Nat) : Int)

/-- Modelled from the behaviour of the external `dateutil.parser.parse` on the
token shapes built by `read_atcf_line`: a 12-digit string is read as
YYYYMMDDHHMM when its calendar components are in range; every other input to
this model is a parse error. -/
def parse_date (s : String) : Except PyErr Int :=
  let cs := s.data
  if cs.length = 12 ∧ allDigits cs then
    let y := digitsToNat (cs.take 4)
    let mo := digitsToNat ((cs.drop 4).take 2)
    let d := digitsToNat ((cs.drop 6).take 2)
    let h := digitsToNat ((cs.drop 8).take 2)
    let mi := digitsToNat ((cs.drop 10).take 2)
    if 1 ≤ mo ∧ mo ≤ 12 ∧ 1 ≤ d ∧ d ≤ daysInMonth y mo ∧ h ≤ 23 ∧ mi ≤ 59 then
      .ok (dtMinutes y mo d h mi)
    else .error .valueError
  else .error .valueError

/-! ## The line decoder -/

/-- Decoded ATCF record, one field per key of the dictionary built by
`read_atcf_line`. Nullable integer cells hold a `PyValue`: an `intV`, the
passed-through empty string, or the `numpy.nan` marker used for short lines.
The longitude is a `PyValue` because a field without E or W is stored as the
raw string. -/
structure ATCFRecord where
  basin : String
  storm_number : String
  record_type : String
  datetime : Int
  latitude : Rat
  longitude : PyValue
  max_sustained_wind_speed : PyValue
  central_pressure : PyValue
  development_level : String
  isotach : PyValue
  quadrant : String
  radius_for_NEQ : PyValue
  radius_for_SEQ : PyValue
  radius_for_SWQ : PyValue
  radius_for_NWQ : PyValue
  background_pressure : PyValue
  radius_of_last_closed_isobar : PyValue
  radius_of_maximum_winds : PyValue
  direction : PyValue
  speed : PyValue
  name : String
deriving DecidableEq, Repr

/-- Field preprocessing of `read_atcf_line` (atcf.py lines 225-229): strip
whitespace from each field, then delete literal backslash-n escapes. -/
def procField (v : String) : String :=
  String.mk (stripEscN (pyTrim v).data)

/-- The processed field list of one raw line: split on commas, then
`procField` each piece. -/
def procFields (line : String) : List String :=
  (pySplit line ',').map procField

/-- Python list indexing: `IndexError` when out of range. -/
def getF (fs : List String) (i : Nat) : Except PyErr String :=
  match fs.get? i with
  | some v => .ok v
  | Option.none => .error .indexError

/-- Latitude decode of atcf.py lines 252-258: a field containing N is parsed
positive, a field containing S is parsed and negated, anything else is the
string that the final multiplication by 0.1 rejects with a TypeError. -/
def decodeLatitude (f : String) : Except PyErr Rat := do
  let v ← if pyContains f 'N' then pyFloatE (pyStripChar f 'N')
    else if pyContains f 'S' then (pyFloatE (pyStripChar f 'S')).map (fun x => ratMul x (-1))
    else .error .typeError
  pure (ratMul v (mkRat 1 10))

/-- Longitude decode of atcf.py lines 260-265: E scales by 0.1, W scales by
-0.1, and a field with neither letter is stored unchanged as a string. -/
def decodeLongitude (f : String) : Except PyErr PyValue :=
  if pyContains f 'E' then
    (pyFloatE (pyStripChar f 'E')).map (fun x => .floatV (ratMul x (mkRat 1 10)))
  else if pyContains f 'W' then
    (pyFloatE (pyStripChar f 'W')).map (fun x => .floatV (ratMul x (mkRat (-1) 10)))
  else .ok (.str f)

/-- Minute completion rule of atcf.py lines 238-243: the minutes token is the
4th field when the record type is BEST and that field is non-empty, and 00
otherwise. -/
def bestMinutes (fields : List String) (record_type : String) : Except PyErr String :=
  if record_type = "BEST" then do
    let f3 ← getF fields 3
    pure (if 0 < f3.length then f3 else "00")
  else pure "00"

/-- Isotach normalization with its distinct error (atcf.py lines 275-281):
only a ValueError from the normalization is converted into the missing radial
wind data error. -/
def decodeIsotach (f : String) : Except PyErr PyValue :=
  match normalize_atcf_value (.str f) .int Option.none with
  | .error .valueError => .error .missingRadialWindData
  | other => other

/-- Guarded trailing block for positions 17-19 (atcf.py lines 293-308):
background pressure, radius of last closed isobar, radius of maximum winds. -/
def decodeTail17 (fields : List String) : Except PyErr (PyValue × PyValue × PyValue) :=
  if 18 < fields.length then do
    let f17 ← getF fields 17
    let v17 ← normalize_atcf_value (.str f17) .int Option.none
    let f18 ← getF fields 18
    let v18 ← normalize_atcf_value (.str f18) .int Option.none
    let f19 ← getF fields 19
    let v19 ← normalize_atcf_value (.str f19) .int Option.none
    pure (v17, v18, v19)
  else pure (.nanV, .nanV, .nanV)

/-- Guarded trailing block for positions 25-26 (atcf.py lines 310-320):
direction and speed. -/
def decodeTail25 (fields : List String) : Except PyErr (PyValue × PyValue) :=
  if 23 < fields.length then do
    let f25 ← getF fields 25
    let v25 ← normalize_atcf_value (.str f25) .int Option.none
    let f26 ← getF fields 26
    let v26 ← normalize_atcf_value (.str f26) .int Option.none
    pure (v25, v26)
  else pure (.nanV, .nanV)

/-- Name field (atcf.py lines 322-327): position 27 when present, otherwise
the empty string. -/
def decodeName (fields : List String) : Except PyErr String :=
  if 27 < fields.length then getF fields 27 else pure ""

/-- Decode of a processed field list, following `read_atcf_line` statement by
statement: field accesses, the BEST minute rule, the datetime and forecast
offset, coordinate decodes, nullable normalizations, the distinct isotach
error, and the guarded trailing blocks (atcf.py lines 231-328). -/
def decodeFields (fields : List String) : Except PyErr ATCFRecord := do
  let basin ← getF fields 0
  let storm_number ← getF fields 1
  let record_type ← getF fields 4
  let minutes ← bestMinutes fields record_type
  let f2 ← getF fields 2
  let datetime0 ← parse_date (f2 ++ minutes)
  let f5 ← getF fields 5
  let forecast_hours ← pyIntE f5
  let datetime := if forecast_hours ≠ 0 then datetime0 + 60 * forecast_hours else datetime0
  let f6 ← getF fields 6
  let latitude ← decodeLatitude f6
  let f7 ← getF fields 7
  let longitude ← decodeLongitude f7
  let f8 ← getF fields 8
  let max_sustained_wind_speed ← normalize_atcf_value (.str f8) .int Option.none
  let f9 ← getF fields 9
  let central_pressure ← normalize_atcf_value (.str f9) .int Option.none
  let development_level ← getF fields 10
  let f11 ← getF fields 11
  let isotach ← decodeIsotach f11
  let quadrant ← getF fields 12
  let f13 ← getF fields 13
  let radius_for_NEQ ← normalize_atcf_value (.str f13) .int Option.none
  let f14 ← getF fields 14
  let radius_for_SEQ ← normalize_atcf_value (.str f14) .int Option.none
  let f15 ← getF fields 15
  let radius_for_SWQ ← normalize_atcf_value (.str f15) .int Option.none
  let f16 ← getF fields 16
  let radius_for_NWQ ← normalize_atcf_value (.str f16) .int Option.none
  let tail17 ← decodeTail17 fields
  let tail25 ← decodeTail25 fields
  let name ← decodeName fields
  pure {
    basin := basin
    storm_number := storm_number
    record_type := record_type
    datetime := datetime
    latitude := latitude
    longitude := longitude
    max_sustained_wind_speed := max_sustained_wind_speed
    central_pressure := central_pressure
    development_level := development_level
    isotach := isotach
    quadrant := quadrant
    radius_for_NEQ := radius_for_NEQ
    radius_for_SEQ := radius_for_SEQ
    radius_for_SWQ := radius_for_SWQ
    radius_for_NWQ := radius_for_NWQ
    background_pressure := tail17.1
    radius_of_last_closed_isobar := tail17.2.1
    radius_of_maximum_winds := tail17.2.2
    direction := tail25.1
    speed := tail25.2
    name := name
  }

/-- Embedding of `read_atcf_line` (atcf.py lines 216-328). -/
def read_atcf_line (line : String) : Except PyErr ATCFRecord :=
  decodeFields (procFields line)

/-! ## read_atcf: framing, filtering, collection -/

/-- Input sources of `read_atcf` relevant to the decoder: an already framed
sequence of text lines (as delivered by the byte-stream branch), or a path
reference together with the lines of the file when it exists (`none` when
opening raises FileNotFoundError). -/
inductive AtcfSource where
  | lines (ls : List String)
  | pathRef (textForm : String) (fileLines : Option (List String))

/-- Framing step of `read_atcf` (atcf.py lines 192-201): open and read the
path when possible; on FileNotFoundError reinterpret the textual form of the
reference as inline content, re-raising the original error when that content
has a single line. -/
def frameSource : AtcfSource → Except PyErr (List String)
  | .lines ls => .ok ls
  | .pathRef _ (some ls) => .ok ls
  | .pathRef p Option.none =>
    let ls := splitlines p
    if ls.length = 1 then .error .fileNotFound else .ok ls

/-- Filter-and-decode loop of `read_atcf` (atcf.py lines 203-208): with a
filter set, a line is decoded when the stripped 5th comma-delimited field is
in the set; without one every line is decoded. -/
def collectRecords (record_types : Option (List String)) :
    List String → Except PyErr (List ATCFRecord)
  | [] => .ok []
  | l :: ls => do
    let keep ← match record_types with
      | Option.none => pure true
      | some ts => do
        let f ← getF (pySplit l ',') 4
        pure (ts.contains (pyTrim f))
    if keep then do
      let r ← read_atcf_line l
      let rest ← collectRecords record_types ls
      pure (r :: rest)
    else
      collectRecords record_types ls

/-- Embedding of `read_atcf` (atcf.py lines 175-213): frame the source,
filter and decode each line, and fail with the distinct no-records error when
nothing was collected. -/
def read_atcf (atcf : AtcfSource) (record_types : Option (List String)) :
    Except PyErr (List ATCFRecord) := do
  let lines ← frameSource atcf
  let records ← collectRecords record_types lines
  if records.length = 0 then .error (.noRecordsFound record_types)
  else .ok records

/-- Sequential decode of a list of lines, the specification-side description
of what `read_atcf` does to the lines that pass its filter. -/
def decodeAll : List String → Except PyErr (List ATCFRecord)
  | [] => .ok []
  | l :: ls => do
    let r ← read_atcf_line l
    let rest ← decodeAll ls
    pure (r :: rest)

/-! ## Inversion helpers -/

theorem except_bind_ok {ε α β : Type} {x : Except ε α} {f : α → Except ε β} {b : β} :
    x >>= f = Except.ok b ↔ ∃ a, x = Except.ok a ∧ f a = Except.ok b := by
  cases x <;> simp [Bind.bind, Except.bind]

theorem except_bind_error {ε α β : Type} {x : Except ε α} {f : α → Except ε β} {e : ε} :
    x >>= f = Except.error e ↔
      x = Except.error e ∨ ∃ a, x = Except.ok a ∧ f a = Except.error e := by
  cases x <;> simp [Bind.bind, Except.bind]

theorem except_pure_ok {ε α : Type} {a b : α} :
    (pure a : Except ε α) = Except.ok b ↔ a = b := by
  simp [pure, Except.pure]

theorem except_map_ok {ε α β : Type} {x : Except ε α} {f : α → β} {b : β} :
    f <$> x = Except.ok b ↔ ∃ a, x = Except.ok a ∧ f a = b := by
  cases x <;> simp [Functor.map, Except.map]

theorem getF_ok_iff {fs : List String} {i : Nat} {v : String} :
    getF fs i = Except.ok v ↔ fs.get? i = some v := by
  unfold getF
  cases h : fs.get? i <;> simp

theorem getF_error_iff {fs : List String} {i : Nat} {e : PyErr} :
    getF fs i = Except.error e ↔ fs.get? i = Option.none ∧ e = .indexError := by
  unfold getF
  cases h : fs.get? i <;> simp [eq_comm]

theorem getD_of_get? {fs : List String} {i : Nat} {v : String}
    (h : fs.get? i = some v) : fs.getD i "" = v := by
  rw [List.getD_eq_getElem?_getD, ← List.get?_eq_getElem?, h]
  rfl

theorem len_of_get? {fs : List String} {i : Nat} {v : String}
    (h : fs.get? i = some v) : i < fs.length := by
  rcases List.get?_eq_some.mp h with ⟨hlt, _⟩
  exact hlt

theorem strlen_pos_iff {s : String} : 0 < s.length ↔ s ≠ "" := by
  cases s with
  | mk data =>
    cases data with
    | nil => simp [String.length]
    | cons c cs =>
      refine iff_of_true (by simp [String.length]) ?_
      intro h
      exact absurd (congrArg String.data h) (by simp)

/-- Characterization of the minute completion when the 4th field exists. -/
theorem bestMinutes_eq {fs : List String} {rt f3 : String} (h3 : fs.get? 3 = some f3) :
    bestMinutes fs rt = Except.ok (if rt = "BEST" ∧ f3 ≠ "" then f3 else "00") := by
  unfold bestMinutes
  by_cases hb : rt = "BEST"
  · rw [if_pos hb]
    have hg : getF fs 3 = Except.ok f3 := getF_ok_iff.mpr h3
    rw [hg]
    simp [Bind.bind, Except.bind, pure, Except.pure, hb, strlen_pos_iff]
  · rw [if_neg hb, if_neg (fun hc => hb hc.1)]
    rfl

/-- The isotach step succeeds exactly when the underlying normalization
succeeds, with the same value. -/
theorem decodeIsotach_ok_iff {f : String} {v : PyValue} :
    decodeIsotach f = Except.ok v ↔
      normalize_atcf_value (.str f) .int Option.none = Except.ok v := by
  unfold decodeIsotach
  cases hn : normalize_atcf_value (.str f) .int Option.none with
  | ok w => simp
  | error e => cases e <;> simp

/-- Short lines leave the 17-19 block at the nan markers. -/
theorem decodeTail17_short {fs : List String} (h : fs.length ≤ 18) :
    decodeTail17 fs = Except.ok (.nanV, .nanV, .nanV) := by
  unfold decodeTail17
  rw [if_neg (by omega)]
  rfl

/-- A successful 17-19 block on a long line forces at least 20 fields and
yields the three normalized values. -/
theorem decodeTail17_long {fs : List String} {a b c : PyValue}
    (h : 18 < fs.length) (hok : decodeTail17 fs = Except.ok (a, b, c)) :
    20 ≤ fs.length
    ∧ normalize_atcf_value (.str (fs.getD 17 "")) .int Option.none = Except.ok a
    ∧ normalize_atcf_value (.str (fs.getD 18 "")) .int Option.none = Except.ok b
    ∧ normalize_atcf_value (.str (fs.getD 19 "")) .int Option.none = Except.ok c := by
  unfold decodeTail17 at hok
  rw [if_pos h] at hok
  simp only [except_bind_ok, except_pure_ok, getF_ok_iff] at hok
  obtain ⟨f17, h17, v17, hv17, f18, h18, v18, hv18, f19, h19, v19, hv19, htup⟩ := hok
  obtain ⟨ha, hb, hc⟩ : v17 = a ∧ v18 = b ∧ v19 = c := by simpa using htup
  subst ha
  subst hb
  subst hc
  refine ⟨by have := len_of_get? h19; omega, ?_, ?_, ?_⟩
  · rw [getD_of_get? h17]
    exact hv17
  · rw [getD_of_get? h18]
    exact hv18
  · rw [getD_of_get? h19]
    exact hv19

/-- Short lines leave the 25-26 block at the nan markers. -/
theorem decodeTail25_short {fs : List String} (h : fs.length ≤ 23) :
    decodeTail25 fs = Except.ok (.nanV, .nanV) := by
  unfold decodeTail25
  rw [if_neg (by omega)]
  rfl

/-- A successful 25-26 block on a long line forces at least 27 fields and
yields the two normalized values. -/
theorem decodeTail25_long {fs : List String} {a b : PyValue}
    (h : 23 < fs.length) (hok : decodeTail25 fs = Except.ok (a, b)) :
    27 ≤ fs.length
    ∧ normalize_atcf_value (.str (fs.getD 25 "")) .int Option.none = Except.ok a
    ∧ normalize_atcf_value (.str (fs.getD 26 "")) .int Option.none = Except.ok b := by
  unfold decodeTail25 at hok
  rw [if_pos h] at hok
  simp only [except_bind_ok, except_pure_ok, getF_ok_iff] at hok
  obtain ⟨f25, h25, v25, hv25, f26, h26, v26, hv26, htup⟩ := hok
  obtain ⟨ha, hb⟩ : v25 = a ∧ v26 = b := by simpa using htup
  subst ha
  subst hb
  refine ⟨by have := len_of_get? h26; omega, ?_, ?_⟩
  · rw [getD_of_get? h25]
    exact hv25
  · rw [getD_of_get? h26]
    exact hv26

/-- Short lines give the empty name. -/
theorem decodeName_short {fs : List String} (h : fs.length ≤ 27) :
    decodeName fs = Except.ok "" := by
  unfold decodeName
  rw [if_neg (by omega)]
  rfl

/-- Long lines read the name at position 27. -/
theorem decodeName_long {fs : List String} {nm : String}
    (h : 27 < fs.length) (hok : decodeName fs = Except.ok nm) :
    fs.getD 27 "" = nm := by
  unfold decodeName at hok
  rw [if_pos h, getF_ok_iff] at hok
  exact getD_of_get? hok

/-- Master inversion lemma: everything that is true of a record successfully
produced by the field decoder, expressed through the processed field list. -/
theorem decodeFields_ok {fs : List String} {r : ATCFRecord}
    (h : decodeFields fs = Except.ok r) :
    17 ≤ fs.length
    ∧ r.basin = fs.getD 0 ""
    ∧ r.storm_number = fs.getD 1 ""
    ∧ r.record_type = fs.getD 4 ""
    ∧ (∃ m base fh,
        bestMinutes fs (fs.getD 4 "") = Except.ok m
        ∧ parse_date (fs.getD 2 "" ++ m) = Except.ok base
        ∧ pyIntE (fs.getD 5 "") = Except.ok fh
        ∧ r.datetime = base + 60 * fh)
    ∧ decodeLatitude (fs.getD 6 "") = Except.ok r.latitude
    ∧ decodeLongitude (fs.getD 7 "") = Except.ok r.longitude
    ∧ normalize_atcf_value (.str (fs.getD 8 "")) .int Option.none =
        Except.ok r.max_sustained_wind_speed
    ∧ normalize_atcf_value (.str (fs.getD 9 "")) .int Option.none =
        Except.ok r.central_pressure
    ∧ r.development_level = fs.getD 10 ""
    ∧ decodeIsotach (fs.getD 11 "") = Except.ok r.isotach
    ∧ r.quadrant = fs.getD 12 ""
    ∧ normalize_atcf_value (.str (fs.getD 13 "")) .int Option.none = Except.ok r.radius_for_NEQ
    ∧ normalize_atcf_value (.str (fs.getD 14 "")) .int Option.none = Except.ok r.radius_for_SEQ
    ∧ normalize_atcf_value (.str (fs.getD 15 "")) .int Option.none = Except.ok r.radius_for_SWQ
    ∧ normalize_atcf_value (.str (fs.getD 16 "")) .int Option.none = Except.ok r.radius_for_NWQ
    ∧ decodeTail17 fs =
        Except.ok (r.background_pressure, r.radius_of_last_closed_isobar,
          r.radius_of_maximum_winds)
    ∧ decodeTail25 fs = Except.ok (r.direction, r.speed)
    ∧ decodeName fs = Except.ok r.name := by
  unfold decodeFields at h
  simp only [except_bind_ok, except_pure_ok, getF_ok_iff] at h
  obtain ⟨basin, h0, sn, h1, rt, h4, m, hm, f2, h2, dt0, hdt0, f5, h5, fh, hfh,
    f6, h6, lat, hlat, f7, h7, lon, hlon, f8, h8, msw, hmsw, f9, h9, cp, hcp,
    dev, h10, f11, h11, iso, hiso, quad, h12, f13, h13, neq, hneq, f14, h14, seq, hseq,
    f15, h15, swq, hswq, f16, h16, nwq, hnwq, t17, ht17, t25, ht25, nm, hnm, hrec⟩ := h
  rcases t17 with ⟨bp, rlci, rmw⟩
  rcases t25 with ⟨dir, spd⟩
  subst hrec
  have hlen : 17 ≤ fs.length := by
    have := len_of_get? h16
    omega
  refine ⟨hlen, (getD_of_get? h0).symm, (getD_of_get? h1).symm, (getD_of_get? h4).symm,
    ⟨m, dt0, fh, ?_, ?_, ?_, ?_⟩, ?_, ?_, ?_, ?_, (getD_of_get? h10).symm, ?_,
    (getD_of_get? h12).symm, ?_, ?_, ?_, ?_, ht17, ht25, hnm⟩
  · rw [getD_of_get? h4]
    exact hm
  · rw [getD_of_get? h2]
    exact hdt0
  · rw [getD_of_get? h5]
    exact hfh
  · show (if fh ≠ 0 then dt0 + 60 * fh else dt0) = dt0 + 60 * fh
    by_cases hz : fh = 0
    · simp [hz]
    · simp [hz]
  · rw [getD_of_get? h6]
    exact hlat
  · rw [getD_of_get? h7]
    exact hlon
  · rw [getD_of_get? h8]
    exact hmsw
  · rw [getD_of_get? h9]
    exact hcp
  · rw [getD_of_get? h11]
    exact hiso
  · rw [getD_of_get? h13]
    exact hneq
  · rw [getD_of_get? h14]
    exact hseq
  · rw [getD_of_get? h15]
    exact hswq
  · rw [getD_of_get? h16]
    exact hnwq

/-! ## Bridges between the smart-constructor rational operations and the
standard ones -/

theorem ratMul_eq (a b : Rat) : ratMul a b = a * b := by
  rw [ratMul, Rat.mkRat_eq_div]
  push_cast
  conv_rhs => rw [← Rat.num_div_den a, ← Rat.num_div_den b]
  rw [div_mul_div_comm]

theorem ratAdd_eq (a b : Rat) : ratAdd a b = a + b := by
  rw [ratAdd, Rat.mkRat_eq_div]
  push_cast
  conv_rhs => rw [← Rat.num_div_den a, ← Rat.num_div_den b]
  rw [div_add_div _ _ (by exact_mod_cast a.den_nz) (by exact_mod_cast b.den_nz)]
  congr 1
  ring

theorem ratSub_eq (a b : Rat) : ratSub a b = a - b := by
  rw [ratSub, ratAdd_eq]
  ring

/-! ## Inversion lemmas for read_atcf -/

theorem read_atcf_ok {src : AtcfSource} {rts : Option (List String)} {rs : List ATCFRecord}
    (h : read_atcf src rts = Except.ok rs) :
    ∃ lines, frameSource src = Except.ok lines
      ∧ collectRecords rts lines = Except.ok rs ∧ rs ≠ [] := by
  unfold read_atcf at h
  simp only [except_bind_ok] at h
  obtain ⟨lines, hl, records, hc, hfin⟩ := h
  by_cases hz : records.length = 0
  · rw [if_pos hz] at hfin
    cases hfin
  · rw [if_neg hz] at hfin
    obtain rfl : records = rs := by
      cases hfin
      rfl
    exact ⟨lines, hl, hc, by intro hnil; exact hz (by simp [hnil])⟩

theorem collectRecords_none_eq (ls : List String) :
    collectRecords Option.none ls = decodeAll ls := by
  induction ls with
  | nil => rfl
  | cons l ls ih =>
    show (do
      let keep ← (pure true : Except PyErr Bool)
      if keep then do
        let r ← read_atcf_line l
        let rest ← collectRecords Option.none ls
        pure (r :: rest)
      else collectRecords Option.none ls) = decodeAll (l :: ls)
    rw [ih]
    cases hr : read_atcf_line l <;>
      simp [decodeAll, Bind.bind, Except.bind, pure, Except.pure, hr]

theorem collectRecords_filter {ts : List String} {ls : List String} {rs : List ATCFRecord}
    (h : collectRecords (some ts) ls = Except.ok rs) :
    decodeAll (ls.filter fun l => ts.contains (pyTrim ((pySplit l ',').getD 4 ""))) =
      Except.ok rs := by
  induction ls generalizing rs with
  | nil =>
    obtain rfl : rs = [] := by
      cases h
      rfl
    rfl
  | cons l ls ih =>
    unfold collectRecords at h
    simp only [except_bind_ok, except_pure_ok, getF_ok_iff] at h
    obtain ⟨f, hf, keep, hkeep, hrest⟩ := h
    subst hkeep
    rw [List.filter_cons]
    have hd : ((pySplit l ',').getD 4 "") = f := getD_of_get? hf
    by_cases hmem : ts.contains (pyTrim f) = true
    · rw [if_pos (by rw [hd]; exact hmem)]
      rw [if_pos hmem] at hrest
      simp only [except_bind_ok, except_pure_ok] at hrest
      obtain ⟨r, hr, rest, hrest2, hcons⟩ := hrest
      subst hcons
      show (do
        let r2 ← read_atcf_line l
        let rest2 ← decodeAll (ls.filter fun l =>
          ts.contains (pyTrim ((pySplit l ',').getD 4 "")))
        pure (r2 :: rest2)) = Except.ok (r :: rest)
      rw [hr, ih hrest2]
      rfl
    · rw [if_neg (by rw [hd]; exact hmem)]
      rw [if_neg hmem] at hrest
      exact ih hrest

theorem collectRecords_short_not_ok {ts : List String} {ls : List String}
    {rs : List ATCFRecord} {l : String} (hmem : l ∈ ls)
    (hshort : (pySplit l ',').length < 5)
    (h : collectRecords (some ts) ls = Except.ok rs) : False := by
  induction ls generalizing rs with
  | nil => cases hmem
  | cons a as ih =>
    unfold collectRecords at h
    simp only [except_bind_ok, except_pure_ok, getF_ok_iff] at h
    obtain ⟨f, hf, keep, hkeep, hrest⟩ := h
    rcases List.mem_cons.mp hmem with rfl | hmem2
    · have := len_of_get? hf
      omega
    · subst hkeep
      by_cases hk : ts.contains (pyTrim f) = true
      · rw [if_pos hk] at hrest
        simp only [except_bind_ok, except_pure_ok] at hrest
        obtain ⟨r, hr, rest, hrest2, hcons⟩ := hrest
        exact ih hmem2 hrest2
      · rw [if_neg hk] at hrest
        exact ih hmem2 hrest

theorem collectRecords_append_short {ts : List String} {ls1 : List String}
    {rs1 : List ATCFRecord} {l : String} (ls2 : List String)
    (h1 : collectRecords (some ts) ls1 = Except.ok rs1)
    (hshort : (pySplit l ',').length < 5) :
    collectRecords (some ts) (ls1 ++ l :: ls2) = Except.error .indexError := by
  induction ls1 generalizing rs1 with
  | nil =>
    rw [List.nil_append]
    unfold collectRecords
    have hgf : getF (pySplit l ',') 4 = Except.error .indexError := by
      rw [getF_error_iff]
      exact ⟨List.get?_eq_none.mpr (by omega), rfl⟩
    rw [hgf]
    rfl
  | cons a as ih =>
    unfold collectRecords at h1
    simp only [except_bind_ok, except_pure_ok, getF_ok_iff] at h1
    obtain ⟨f, hf, keep, hkeep, hrest⟩ := h1
    subst hkeep
    have hgf : getF (pySplit a ',') 4 = Except.ok f := getF_ok_iff.mpr hf
    rw [List.cons_append]
    unfold collectRecords
    rw [hgf]
    simp only [Bind.bind, Except.bind, pure, Except.pure]
    by_cases hk : ts.contains (pyTrim f) = true
    · rw [if_pos hk] at hrest ⊢
      simp only [except_bind_ok, except_pure_ok] at hrest
      obtain ⟨r, hr, rest, hrest2, hcons⟩ := hrest
      rw [hr]
      simp only [Except.bind]
      rw [ih hrest2]
    · rw [if_neg hk] at hrest ⊢
      exact ih hrest

/-! ## Concrete inputs used by the claim theorems -/

/-- A well-formed 17-field BEST line (the end-to-end example of the spec). -/
def bestLine17 : String :=
  "AL, 09, 2005082912, , BEST, 0, 241N, 0800W, 65, 1000, TS, 34, NEQ, 120, 90, 60, 90"

/-- The record decoded from `bestLine17`. -/
def bestRec17 : ATCFRecord := {
  basin := "AL", storm_number := "09", record_type := "BEST",
  datetime := 1054348560, latitude := mkRat 241 10,
  longitude := .floatV (mkRat (-80) 1),
  max_sustained_wind_speed := .intV 65, central_pressure := .intV 1000,
  development_level := "TS", isotach := .intV 34, quadrant := "NEQ",
  radius_for_NEQ := .intV 120, radius_for_SEQ := .intV 90,
  radius_for_SWQ := .intV 60, radius_for_NWQ := .intV 90,
  background_pressure := .nanV, radius_of_last_closed_isobar := .nanV,
  radius_of_maximum_winds := .nanV, direction := .nanV, speed := .nanV,
  name := "" }

/-- The same line with a blank isotach field (position 11). -/
def blankIsotachLine : String :=
  "AL, 09, 2005082912, , BEST, 0, 241N, 0800W, 65, 1000, TS, , NEQ, 120, 90, 60, 90"

/-- The same line with a non-numeric isotach field. -/
def badIsotachLine : String :=
  "AL, 09, 2005082912, , BEST, 0, 241N, 0800W, 65, 1000, TS, XX, NEQ, 120, 90, 60, 90"

/-- A 19-field line: the 17-field example extended with background pressure
and radius of last closed isobar only. -/
def line19 : String :=
  "AL, 09, 2005082912, , BEST, 0, 241N, 0800W, 65, 1000, TS, 34, NEQ, 120, 90, 60, 90, 1010, 350"

/-- A full 28-field line. -/
def line28 : String :=
  "AL, 09, 2005082912, , BEST, 0, 241N, 0800W, 65, 1000, TS, 34, NEQ, 120, 90, 60, 90, 1010, 350, 25, 40, 0, , , 12, 120, 10, INVEST"

/-- The record decoded from `line28`. -/
def rec28 : ATCFRecord := {
  basin := "AL", storm_number := "09", record_type := "BEST",
  datetime := 1054348560, latitude := mkRat 241 10,
  longitude := .floatV (mkRat (-80) 1),
  max_sustained_wind_speed := .intV 65, central_pressure := .intV 1000,
  development_level := "TS", isotach := .intV 34, quadrant := "NEQ",
  radius_for_NEQ := .intV 120, radius_for_SEQ := .intV 90,
  radius_for_SWQ := .intV 60, radius_for_NWQ := .intV 90,
  background_pressure := .intV 1010, radius_of_last_closed_isobar := .intV 350,
  radius_of_maximum_winds := .intV 25, direction := .intV 120, speed := .intV 10,
  name := "INVEST" }

/-! ## Claim C1 -/

/-- Claim C1 (code bug evidence): a line whose isotach field is blank does
not fail; it decodes to a record whose isotach is the passed-through empty
string, because the empty string takes the null path of
`normalize_atcf_value` and never raises the ValueError that the isotach
handler catches.  A non-numeric non-blank isotach does raise the distinct
missing-radial-wind-data error, as the claim describes. -/
theorem c1_blank_isotach_not_fatal :
    (read_atcf_line blankIsotachLine).map ATCFRecord.isotach = Except.ok (.str "")
    ∧ normalize_atcf_value (.str "") .int Option.none = Except.ok (.str "")
    ∧ read_atcf_line badIsotachLine = Except.error .missingRadialWindData := by
  refine ⟨?_, ?_, ?_⟩ <;> decide

/-! ## Claim C2 -/

/-- Claim C2 counterexample: a line with exactly 19 comma-separated fields
(more than 18) does not populate the three trailing fields and return a
record; the decode raises an IndexError reading position 19, because the
guard `len(line) > 18` does not guarantee that position 19 exists. -/
theorem c2_19_fields_index_error :
    read_atcf_line line19 = Except.error .indexError
    ∧ 18 < (procFields line19).length := by
  refine ⟨?_, ?_⟩ <;> decide

/-- Claim C2 (amended): for every successfully decoded line, the trailing
blocks behave as follows. With at most 18 fields the three 17-19 fields are
the nan marker; with more than 18 fields the line must in fact have at least
20 fields (a 19-field line can never produce a record) and the three fields
are the normalizations of positions 17-19.  With at most 23 fields direction
and speed are the nan marker; with more than 23 fields the line must have at
least 27 fields (24-26 fields can never produce a record) and they are the
normalizations of positions 25-26.  The name is position 27 exactly when the
line has more than 27 fields and the empty string otherwise. -/
theorem c2_trailing_fields (line : String) (r : ATCFRecord)
    (h : read_atcf_line line = Except.ok r) :
    ((procFields line).length ≤ 18 →
      r.background_pressure = .nanV
      ∧ r.radius_of_last_closed_isobar = .nanV
      ∧ r.radius_of_maximum_winds = .nanV)
    ∧ (18 < (procFields line).length →
      20 ≤ (procFields line).length
      ∧ normalize_atcf_value (.str ((procFields line).getD 17 "")) .int Option.none =
          Except.ok r.background_pressure
      ∧ normalize_atcf_value (.str ((procFields line).getD 18 "")) .int Option.none =
          Except.ok r.radius_of_last_closed_isobar
      ∧ normalize_atcf_value (.str ((procFields line).getD 19 "")) .int Option.none =
          Except.ok r.radius_of_maximum_winds)
    ∧ ((procFields line).length ≤ 23 → r.direction = .nanV ∧ r.speed = .nanV)
    ∧ (23 < (procFields line).length →
      27 ≤ (procFields line).length
      ∧ normalize_atcf_value (.str ((procFields line).getD 25 "")) .int Option.none =
          Except.ok r.direction
      ∧ normalize_atcf_value (.str ((procFields line).getD 26 "")) .int Option.none =
          Except.ok r.speed)
    ∧ ((procFields line).length ≤ 27 → r.name = "")
    ∧ (27 < (procFields line).length → r.name = (procFields line).getD 27 "") := by
  have h' : decodeFields (procFields line) = Except.ok r := h
  obtain ⟨-, -, -, -, -, -, -, -, -, -, -, -, -, -, -, -, ht17, ht25, hnm⟩ :=
    decodeFields_ok h'
  refine ⟨?_, ?_, ?_, ?_, ?_, ?_⟩
  · intro hle
    have hs := @decodeTail17_short (procFields line) hle
    exact by simpa using ht17.symm.trans hs
  · intro hlt
    exact decodeTail17_long hlt ht17
  · intro hle
    have hs := @decodeTail25_short (procFields line) hle
    exact by simpa using ht25.symm.trans hs
  · intro hlt
    exact decodeTail25_long hlt ht25
  · intro hle
    have hs := @decodeName_short (procFields line) hle
    simpa using hnm.symm.trans hs
  · intro hlt
    exact (decodeName_long hlt hnm).symm

/-- Witness for the amended claim C2, at the 28-field line. -/
theorem c2_trailing_fields_witness :
    read_atcf_line line28 = Except.ok rec28
    ∧ 27 ≤ (procFields line28).length
    ∧ rec28.name = (procFields line28).getD 27 "" := by
  have hok : read_atcf_line line28 = Except.ok rec28 := by decide
  refine ⟨hok, ?_, ?_⟩
  · exact ((c2_trailing_fields line28 rec28 hok).2.2.2.1 (by decide)).1
  · exact (c2_trailing_fields line28 rec28 hok).2.2.2.2.2 (by decide)

/-! ## Claim C3 -/

/-- Claim C3: numeric normalization passes the null markers (None, nan, the
empty string) through unchanged for every target type and precision; with a
requested precision for an int or float target, a raw string is first
float-converted, then rounded at that precision, then converted to the
target type; and a Quantity wrapper is unwrapped to its bare magnitude
before all of the above. -/
theorem c3_normalization :
    (∀ t rd, normalize_atcf_value .none t rd = Except.ok .none
      ∧ normalize_atcf_value .nanV t rd = Except.ok .nanV
      ∧ normalize_atcf_value (.str "") t rd = Except.ok (.str ""))
    ∧ (∀ s d t, (t = .int ∨ t = .float) → s ≠ "" →
        normalize_atcf_value (.str s) t (some d) =
          (pyFloatE s).bind fun q => convert_value (.floatV (ratRound q d)) t)
    ∧ (∀ v t rd, (∀ m, v ≠ .quantity m) →
        normalize_atcf_value (.quantity v) t rd = normalize_atcf_value v t rd) := by
  refine ⟨?_, ?_, ?_⟩
  · intro t rd
    refine ⟨rfl, rfl, rfl⟩
  · intro s d t ht hs
    unfold normalize_atcf_value
    rw [if_neg (by simp [hs])]
    rcases ht with rfl | rfl <;>
      cases hq : pyFloat? s <;>
        simp [pyFloatE, hq, Bind.bind, Except.bind, pure, Except.pure, pyRoundVal,
          Functor.map, Except.map]
  · intro v t rd hv
    cases v with
    | quantity m => exact absurd rfl (hv m)
    | none => rfl
    | nanV => rfl
    | str s => rfl
    | intV n => rfl
    | floatV q => rfl

/-- Witness for claim C3: concrete instances of each conjunct, with the
round-then-convert pipeline evaluated on the string 2.567 at precision 1. -/
theorem c3_normalization_witness :
    normalize_atcf_value (.str "2.567") .int (some 1) =
      ((pyFloatE "2.567").bind fun q => convert_value (.floatV (ratRound q 1)) .int)
    ∧ normalize_atcf_value (.str "2.567") .int (some 1) = Except.ok (.intV 2)
    ∧ normalize_atcf_value (.quantity (.intV 5)) .int Option.none =
        normalize_atcf_value (.intV 5) .int Option.none
    ∧ normalize_atcf_value .nanV .int (some 2) = Except.ok .nanV := by
  refine ⟨c3_normalization.2.1 "2.567" 1 .int (Or.inl rfl) (by decide), by decide,
    c3_normalization.2.2 (.intV 5) .int Option.none (fun m hm => PyValue.noConfusion hm),
    (c3_normalization.1 .int (some 2)).2.1⟩

/-! ## Coordinate branch lemmas -/

theorem decodeLatitude_N {f : String} {q : Rat} (hN : pyContains f 'N' = true)
    (hq : pyFloat? (pyStripChar f 'N') = some q) :
    decodeLatitude f = Except.ok (q * (1 / 10)) := by
  unfold decodeLatitude
  rw [if_pos hN]
  have he : pyFloatE (pyStripChar f 'N') = Except.ok q := by
    unfold pyFloatE
    rw [hq]
  rw [he]
  simp [Bind.bind, Except.bind, pure, Except.pure, ratMul_eq, Rat.mkRat_eq_div]

theorem decodeLatitude_S {f : String} {q : Rat} (hN : pyContains f 'N' = false)
    (hS : pyContains f 'S' = true) (hq : pyFloat? (pyStripChar f 'S') = some q) :
    decodeLatitude f = Except.ok (-q * (1 / 10)) := by
  unfold decodeLatitude
  rw [if_neg (by simp [hN]), if_pos hS]
  have he : pyFloatE (pyStripChar f 'S') = Except.ok q := by
    unfold pyFloatE
    rw [hq]
  rw [he]
  simp [Bind.bind, Except.bind, pure, Except.pure, Functor.map, Except.map, ratMul_eq,
    Rat.mkRat_eq_div]

theorem decodeLongitude_E {f : String} {q : Rat} (hE : pyContains f 'E' = true)
    (hq : pyFloat? (pyStripChar f 'E') = some q) :
    decodeLongitude f = Except.ok (.floatV (q * (1 / 10))) := by
  unfold decodeLongitude
  rw [if_pos hE]
  have he : pyFloatE (pyStripChar f 'E') = Except.ok q := by
    unfold pyFloatE
    rw [hq]
  rw [he]
  simp [Functor.map, Except.map, ratMul_eq, Rat.mkRat_eq_div]

theorem decodeLongitude_W {f : String} {q : Rat} (hE : pyContains f 'E' = false)
    (hW : pyContains f 'W' = true) (hq : pyFloat? (pyStripChar f 'W') = some q) :
    decodeLongitude f = Except.ok (.floatV (q * (-1 / 10))) := by
  unfold decodeLongitude
  rw [if_neg (by simp [hE]), if_pos hW]
  have he : pyFloatE (pyStripChar f 'W') = Except.ok q := by
    unfold pyFloatE
    rw [hq]
  rw [he]
  have : ratMul q (mkRat (-1) 10) = q * (-1 / 10) := by
    rw [ratMul_eq, Rat.mkRat_eq_div]
    norm_num
  simp [Functor.map, Except.map, this]

theorem decodeLongitude_passthrough {f : String} (hE : pyContains f 'E' = false)
    (hW : pyContains f 'W' = false) :
    decodeLongitude f = Except.ok (.str f) := by
  unfold decodeLongitude
  rw [if_neg (by simp [hE]), if_neg (by simp [hW])]

/-! ## Claim C4 -/

/-- Claim C4: in every successfully decoded record, the latitude comes from
the numeric prefix of field 6 parsed as a float and scaled by 0.1, positive
for an N suffix and negated for an S suffix; analogously the longitude from
field 7 with E positive and W negative. -/
theorem c4_coordinate_decode (line : String) (r : ATCFRecord) (f6 f7 : String)
    (h : read_atcf_line line = Except.ok r)
    (h6 : (procFields line).get? 6 = some f6)
    (h7 : (procFields line).get? 7 = some f7) :
    (∀ q, pyContains f6 'N' = true → pyFloat? (pyStripChar f6 'N') = some q →
      r.latitude = q * (1 / 10))
    ∧ (∀ q, pyContains f6 'N' = false → pyContains f6 'S' = true →
      pyFloat? (pyStripChar f6 'S') = some q → r.latitude = -q * (1 / 10))
    ∧ (∀ q, pyContains f7 'E' = true → pyFloat? (pyStripChar f7 'E') = some q →
      r.longitude = .floatV (q * (1 / 10)))
    ∧ (∀ q, pyContains f7 'E' = false → pyContains f7 'W' = true →
      pyFloat? (pyStripChar f7 'W') = some q →
      r.longitude = .floatV (q * (-1 / 10))) := by
  have h' : decodeFields (procFields line) = Except.ok r := h
  obtain ⟨-, -, -, -, -, hlat, hlon, -⟩ := decodeFields_ok h'
  rw [getD_of_get? h6] at hlat
  rw [getD_of_get? h7] at hlon
  refine ⟨?_, ?_, ?_, ?_⟩
  · intro q hN hq
    have := (decodeLatitude_N hN hq).symm.trans hlat
    exact (Except.ok.inj this).symm
  · intro q hN hS hq
    have := (decodeLatitude_S hN hS hq).symm.trans hlat
    exact (Except.ok.inj this).symm
  · intro q hE hq
    have := (decodeLongitude_E hE hq).symm.trans hlon
    exact (Except.ok.inj this).symm
  · intro q hE hW hq
    have := (decodeLongitude_W hE hW hq).symm.trans hlon
    exact (Except.ok.inj this).symm

/-- Witness for claim C4 at the 17-field example line: latitude field 241N
gives 24.1 and longitude field 0800W gives -80. -/
theorem c4_coordinate_decode_witness :
    read_atcf_line bestLine17 = Except.ok bestRec17
    ∧ bestRec17.latitude = 241 * ((1 : Rat) / 10)
    ∧ bestRec17.longitude = .floatV (800 * ((-1 : Rat) / 10)) := by
  have hok : read_atcf_line bestLine17 = Except.ok bestRec17 := by decide
  have hc := c4_coordinate_decode bestLine17 bestRec17 "241N" "0800W" hok
    (by decide) (by decide)
  exact ⟨hok, hc.1 241 (by decide) (by decide),
    hc.2.2.2 800 (by decide) (by decide) (by decide)⟩

/-! ## Claim C9 -/

/-- Claim C9: a successfully decoded line whose longitude field contains
neither E nor W stores the raw processed field string as the longitude,
with no parsing, scaling or sign adjustment and no error. -/
theorem c9_longitude_passthrough (line : String) (r : ATCFRecord) (f7 : String)
    (h : read_atcf_line line = Except.ok r)
    (h7 : (procFields line).get? 7 = some f7)
    (hE : pyContains f7 'E' = false) (hW : pyContains f7 'W' = false) :
    r.longitude = .str f7 := by
  have h' : decodeFields (procFields line) = Except.ok r := h
  obtain ⟨-, -, -, -, -, -, hlon, -⟩ := decodeFields_ok h'
  rw [getD_of_get? h7] at hlon
  have := (decodeLongitude_passthrough hE hW).symm.trans hlon
  exact (Except.ok.inj this).symm

/-- A 17-field line whose longitude field has no hemisphere letter. -/
def noHemiLine : String :=
  "AL, 09, 2005082912, , BEST, 0, 241N, 0800, 65, 1000, TS, 34, NEQ, 120, 90, 60, 90"

/-- The record decoded from `noHemiLine`: its longitude is the raw string. -/
def noHemiRec : ATCFRecord := {
  basin := "AL", storm_number := "09", record_type := "BEST",
  datetime := 1054348560, latitude := mkRat 241 10, longitude := .str "0800",
  max_sustained_wind_speed := .intV 65, central_pressure := .intV 1000,
  development_level := "TS", isotach := .intV 34, quadrant := "NEQ",
  radius_for_NEQ := .intV 120, radius_for_SEQ := .intV 90,
  radius_for_SWQ := .intV 60, radius_for_NWQ := .intV 90,
  background_pressure := .nanV, radius_of_last_closed_isobar := .nanV,
  radius_of_maximum_winds := .nanV, direction := .nanV, speed := .nanV,
  name := "" }

/-- Witness for claim C9: the line with longitude field 0800 decodes with no
error and stores the raw string. -/
theorem c9_longitude_passthrough_witness :
    read_atcf_line noHemiLine = Except.ok noHemiRec
    ∧ noHemiRec.longitude = .str "0800" := by
  have hok : read_atcf_line noHemiLine = Except.ok noHemiRec := by decide
  exact ⟨hok, c9_longitude_passthrough noHemiLine noHemiRec "0800" hok
    (by decide) (by decide) (by decide)⟩

/-! ## Claim C6 -/

/-- A 17-field line with latitude field 9999N. -/
def outOfRangeLatLine : String :=
  "AL, 09, 2005082912, , BEST, 0, 9999N, 0800W, 65, 1000, TS, 34, NEQ, 120, 90, 60, 90"

/-- Claim C6 counterexample: the decoder enforces no range check, so the
line with latitude field 9999N produces a record whose latitude is 999.9,
outside [-90, 90]. -/
theorem c6_out_of_range_latitude :
    (read_atcf_line outOfRangeLatLine).map ATCFRecord.latitude = Except.ok (mkRat 9999 10)
    ∧ ¬ (mkRat 9999 10 ≤ (90 : Rat)) := by
  refine ⟨?_, ?_⟩ <;> decide

/-- Claim C6 (amended): the decoder performs no range validation, so the
coordinate ranges hold exactly when the parsed numeric prefixes are small
enough: a latitude prefix of magnitude at most 900 yields a latitude in
[-90, 90], and a longitude prefix of magnitude at most 1800 yields a
longitude in [-180, 180]. -/
theorem c6_coordinate_ranges (line : String) (r : ATCFRecord) (f6 f7 : String)
    (h : read_atcf_line line = Except.ok r)
    (h6 : (procFields line).get? 6 = some f6)
    (h7 : (procFields line).get? 7 = some f7) :
    (∀ q, pyContains f6 'N' = true → pyFloat? (pyStripChar f6 'N') = some q →
      -900 ≤ q → q ≤ 900 → -90 ≤ r.latitude ∧ r.latitude ≤ 90)
    ∧ (∀ q, pyContains f6 'N' = false → pyContains f6 'S' = true →
      pyFloat? (pyStripChar f6 'S') = some q →
      -900 ≤ q → q ≤ 900 → -90 ≤ r.latitude ∧ r.latitude ≤ 90)
    ∧ (∀ q, pyContains f7 'E' = true → pyFloat? (pyStripChar f7 'E') = some q →
      -1800 ≤ q → q ≤ 1800 →
      ∃ ql, r.longitude = .floatV ql ∧ -180 ≤ ql ∧ ql ≤ 180)
    ∧ (∀ q, pyContains f7 'E' = false → pyContains f7 'W' = true →
      pyFloat? (pyStripChar f7 'W') = some q →
      -1800 ≤ q → q ≤ 1800 →
      ∃ ql, r.longitude = .floatV ql ∧ -180 ≤ ql ∧ ql ≤ 180) := by
  have h' : decodeFields (procFields line) = Except.ok r := h
  obtain ⟨-, -, -, -, -, hlat, hlon, -⟩ := decodeFields_ok h'
  rw [getD_of_get? h6] at hlat
  rw [getD_of_get? h7] at hlon
  refine ⟨?_, ?_, ?_, ?_⟩
  · intro q hN hq hlo hhi
    have hv := (decodeLatitude_N hN hq).symm.trans hlat
    have he : r.latitude = q * (1 / 10) := (Except.ok.inj hv).symm
    rw [he]
    constructor <;> linarith
  · intro q hN hS hq hlo hhi
    have hv := (decodeLatitude_S hN hS hq).symm.trans hlat
    have he : r.latitude = -q * (1 / 10) := (Except.ok.inj hv).symm
    rw [he]
    constructor <;> linarith
  · intro q hE hq hlo hhi
    have hv := (decodeLongitude_E hE hq).symm.trans hlon
    have he : r.longitude = .floatV (q * (1 / 10)) := (Except.ok.inj hv).symm
    exact ⟨q * (1 / 10), he, by linarith, by linarith⟩
  · intro q hE hW hq hlo hhi
    have hv := (decodeLongitude_W hE hW hq).symm.trans hlon
    have he : r.longitude = .floatV (q * (-1 / 10)) := (Except.ok.inj hv).symm
    exact ⟨q * (-1 / 10), he, by linarith, by linarith⟩

/-- Witness for the amended claim C6 at the 17-field example line. -/
theorem c6_coordinate_ranges_witness :
    read_atcf_line bestLine17 = Except.ok bestRec17
    ∧ (-90 ≤ bestRec17.latitude ∧ bestRec17.latitude ≤ 90)
    ∧ ∃ ql, bestRec17.longitude = .floatV ql ∧ -180 ≤ ql ∧ ql ≤ 180 := by
  have hok : read_atcf_line bestLine17 = Except.ok bestRec17 := by decide
  have hc := c6_coordinate_ranges bestLine17 bestRec17 "241N" "0800W" hok
    (by decide) (by decide)
  exact ⟨hok, hc.1 241 (by decide) (by decide) (by decide) (by decide),
    hc.2.2.2 800 (by decide) (by decide) (by decide) (by decide) (by decide)⟩

/-! ## Claim C5 -/

/-- Claim C5: the datetime of every successfully decoded record is the base
timestamp token (position 2) completed with a minute component that is the
position-3 field exactly when the record type is BEST and that field is
non-empty and 00 otherwise, plus the forecast-period hours of position 5
parsed as an integer (adding zero hours is the identity, so the nonzero
guard of the code is immaterial to the value). -/
theorem c5_datetime (line : String) (r : ATCFRecord) (f2 f3 f4 f5 : String)
    (base fh : Int)
    (h : read_atcf_line line = Except.ok r)
    (h2 : (procFields line).get? 2 = some f2)
    (h3 : (procFields line).get? 3 = some f3)
    (h4 : (procFields line).get? 4 = some f4)
    (h5 : (procFields line).get? 5 = some f5)
    (hbase : parse_date (f2 ++ (if f4 = "BEST" ∧ f3 ≠ "" then f3 else "00")) =
      Except.ok base)
    (hfh : pyInt? f5 = some fh) :
    r.datetime = base + 60 * fh := by
  have h' : decodeFields (procFields line) = Except.ok r := h
  obtain ⟨-, -, -, -, ⟨m, base2, fh2, hm, hb2, hf2, hdt⟩, -⟩ := decodeFields_ok h'
  rw [getD_of_get? h4] at hm
  rw [getD_of_get? h2] at hb2
  rw [getD_of_get? h5] at hf2
  have hmeq : m = if f4 = "BEST" ∧ f3 ≠ "" then f3 else "00" :=
    (Except.ok.inj ((bestMinutes_eq h3).symm.trans hm)).symm
  rw [hmeq] at hb2
  have hbase2 : base2 = base := Except.ok.inj (hb2.symm.trans hbase)
  have hfh2 : fh2 = fh := by
    unfold pyIntE at hf2
    rw [hfh] at hf2
    exact (Except.ok.inj hf2).symm
  rw [hdt, hbase2, hfh2]

/-- A 17-field OFCL line with a 12-hour forecast period. -/
def ofclLine : String :=
  "AL, 09, 2005082912, , OFCL, 12, 241N, 0800W, 65, 1000, TS, 34, NEQ, 120, 90, 60, 90"

/-- The record decoded from `ofclLine`. -/
def ofclRec : ATCFRecord := {
  basin := "AL", storm_number := "09", record_type := "OFCL",
  datetime := 1054349280, latitude := mkRat 241 10,
  longitude := .floatV (mkRat (-80) 1),
  max_sustained_wind_speed := .intV 65, central_pressure := .intV 1000,
  development_level := "TS", isotach := .intV 34, quadrant := "NEQ",
  radius_for_NEQ := .intV 120, radius_for_SEQ := .intV 90,
  radius_for_SWQ := .intV 60, radius_for_NWQ := .intV 90,
  background_pressure := .nanV, radius_of_last_closed_isobar := .nanV,
  radius_of_maximum_winds := .nanV, direction := .nanV, speed := .nanV,
  name := "" }

/-- Witness for claim C5: base 2005082912 with OFCL and forecast hours 12
gives 2005-08-30T00:00, and the BEST example line with minute field empty
gives 2005-08-29T12:00; the BEST minute rule with minute field 30 completes
the token to 200508291230. -/
theorem c5_datetime_witness :
    read_atcf_line ofclLine = Except.ok ofclRec
    ∧ ofclRec.datetime = dtMinutes 2005 8 30 0 0
    ∧ bestRec17.datetime = dtMinutes 2005 8 29 12 0
    ∧ parse_date ("2005082912" ++
        (if "BEST" = "BEST" ∧ "30" ≠ "" then "30" else "00")) =
      Except.ok (dtMinutes 2005 8 29 12 30) := by
  have hok : read_atcf_line ofclLine = Except.ok ofclRec := by decide
  have hdt := c5_datetime ofclLine ofclRec "2005082912" "" "OFCL" "12" 1054348560 12
    hok (by decide) (by decide) (by decide) (by decide) (by decide) (by decide)
  exact ⟨hok, hdt.trans (by decide), by decide, by decide⟩

/-! ## Claim C7 -/

/-- A line whose record type field contains a literal backslash-n escape. -/
def escTypeLine : String :=
  "AL, 09, 2005082912, , BE\\nST, 0, 241N, 0800W, 65, 1000, TS, 34, NEQ, 120, 90, 60, 90"

/-- Claim C7 counterexample: the filter matches the trimmed 5th field before
escape stripping, while the decoded record stores the field after escape
stripping, so with filter set containing only the escaped tag the resulting
table holds a record whose recordType is outside the set. -/
theorem c7_filter_escape_mismatch :
    (read_atcf (.lines [escTypeLine]) (some ["BE\\nST"])).map
        (fun rs => rs.map ATCFRecord.record_type) = Except.ok ["BEST"]
    ∧ ¬ ("BEST" ∈ ["BE\\nST"]) := by
  refine ⟨?_, ?_⟩ <;> decide

/-- Claim C7 (amended): with a filter set, the resulting table is exactly the
in-order decode of the lines whose trimmed 5th comma-delimited field is in
the set, so no non-matching line contributes a record; each record stores as
recordType the trimmed and escape-stripped 5th field, which coincides with
the matched field unless it contains a literal backslash-n escape; with no
filter set, every line is decoded. -/
theorem c7_filter_correctness :
    (∀ rts ls rs, read_atcf (.lines ls) (some rts) = Except.ok rs →
      decodeAll (ls.filter fun l => rts.contains (pyTrim ((pySplit l ',').getD 4 ""))) =
        Except.ok rs)
    ∧ (∀ line r f4, read_atcf_line line = Except.ok r →
      (procFields line).get? 4 = some f4 → r.record_type = f4)
    ∧ (∀ ls rs, read_atcf (.lines ls) Option.none = Except.ok rs →
      decodeAll ls = Except.ok rs) := by
  refine ⟨?_, ?_, ?_⟩
  · intro rts ls rs h
    obtain ⟨lines, hl, hc, -⟩ := read_atcf_ok h
    have : ls = lines := Except.ok.inj hl
    subst this
    exact collectRecords_filter hc
  · intro line r f4 h h4
    have h' : decodeFields (procFields line) = Except.ok r := h
    obtain ⟨-, -, -, hrt, -⟩ := decodeFields_ok h'
    rw [hrt]
    exact getD_of_get? h4
  · intro ls rs h
    obtain ⟨lines, hl, hc, -⟩ := read_atcf_ok h
    have : ls = lines := Except.ok.inj hl
    subst this
    rw [← collectRecords_none_eq]
    exact hc

/-- Witness for the amended claim C7: filtering a BEST line and an OFCL line
by the BEST tag yields exactly the decode of the matching line, whose
recordType is BEST. -/
theorem c7_filter_correctness_witness :
    decodeAll (List.filter
      (fun l => List.contains ["BEST"] (pyTrim ((pySplit l ',').getD 4 "")))
      [bestLine17, ofclLine]) = Except.ok [bestRec17]
    ∧ bestRec17.record_type = "BEST" := by
  refine ⟨c7_filter_correctness.1 ["BEST"] [bestLine17, ofclLine] [bestRec17] (by decide),
    c7_filter_correctness.2.1 bestLine17 bestRec17 "BEST" (by decide) (by decide)⟩

/-! ## Claim C8 -/

/-- Claim C8 counterexample: the empty-string path reference cannot be
opened, its textual form splits into zero lines (not one), so the not-found
failure is not re-raised and decoding proceeds on zero lines, ending in the
no-records error instead. -/
theorem c8_empty_path_proceeds :
    splitlines "" = []
    ∧ read_atcf (.pathRef "" Option.none) Option.none =
        Except.error (.noRecordsFound Option.none)
    ∧ PyErr.noRecordsFound Option.none ≠ PyErr.fileNotFound := by
  refine ⟨?_, ?_, ?_⟩ <;> decide

/-- Claim C8 (amended): when a path reference does not exist, its textual
form is reinterpreted as inline content and split into lines; if that yields
exactly one line the original not-found failure is re-raised; for any other
number of lines (zero included) decoding proceeds on the inline lines
exactly as it would on a framed line sequence. -/
theorem c8_path_fallback (p : String) (rts : Option (List String)) :
    ((splitlines p).length = 1 →
      read_atcf (.pathRef p Option.none) rts = Except.error .fileNotFound)
    ∧ ((splitlines p).length ≠ 1 →
      read_atcf (.pathRef p Option.none) rts = read_atcf (.lines (splitlines p)) rts) := by
  constructor
  · intro h1
    have hframe : frameSource (.pathRef p Option.none) = Except.error .fileNotFound := by
      unfold frameSource
      simp [h1]
    unfold read_atcf
    rw [hframe]
    rfl
  · intro h1
    have hframe : frameSource (.pathRef p Option.none) = Except.ok (splitlines p) := by
      unfold frameSource
      simp [h1]
    unfold read_atcf
    rw [hframe]
    rfl

/-- Witness for the amended claim C8: a single-line missing path re-raises
the not-found failure, and a two-line textual form is decoded as inline
content. -/
theorem c8_path_fallback_witness :
    read_atcf (.pathRef "nosuchfile.dat" Option.none) (some ["BEST"]) =
      Except.error .fileNotFound
    ∧ read_atcf (.pathRef "a\nb" Option.none) Option.none =
        read_atcf (.lines (splitlines "a\nb")) Option.none := by
  exact ⟨(c8_path_fallback "nosuchfile.dat" (some ["BEST"])).1 (by decide),
    (c8_path_fallback "a\nb" Option.none).2 (by decide)⟩

/-! ## Claim C10 -/

/-- Claim C10: with a filter set supplied, the filter stage reads the 5th
comma-delimited field of each line it reaches, so an input containing a line
with fewer than five fields can never produce a table, and as soon as the
lines before the short line have been processed the failure is an
IndexError raised at the filter stage. -/
theorem c10_short_line_index_error :
    (∀ rts ls out l, l ∈ ls → (pySplit l ',').length < 5 →
      read_atcf (.lines ls) (some rts) ≠ Except.ok out)
    ∧ (∀ rts ls1 l ls2 rs1, (pySplit l ',').length < 5 →
      collectRecords (some rts) ls1 = Except.ok rs1 →
      read_atcf (.lines (ls1 ++ l :: ls2)) (some rts) = Except.error .indexError) := by
  constructor
  · intro rts ls out l hmem hshort hok
    obtain ⟨lines, hl, hc, -⟩ := read_atcf_ok hok
    have : ls = lines := Except.ok.inj hl
    subst this
    exact collectRecords_short_not_ok hmem hshort hc
  · intro rts ls1 l ls2 rs1 hshort h1
    have hcol := @collectRecords_append_short rts ls1 rs1 l ls2 h1 hshort
    have hframe : frameSource (.lines (ls1 ++ l :: ls2)) =
        Except.ok (ls1 ++ l :: ls2) := rfl
    unfold read_atcf
    rw [hframe]
    simp only [Bind.bind, Except.bind]
    rw [hcol]

/-- Witness for claim C10: a blank line under a BEST filter fails with the
IndexError of the filter stage. -/
theorem c10_short_line_index_error_witness :
    read_atcf (.lines [""]) (some ["BEST"]) = Except.error .indexError :=
  c10_short_line_index_error.2 ["BEST"] [] "" [] [] (by decide) rfl
